import Mathlib

/-!
Verification of the `gcs` package (`src/gcs/gcs.go`): a shallow embedding of
its two exported operations, `Connect` and `Upload`, together with the
internal helpers `createClient` and `setBucket`, and proofs of the spec's
claims about them.

Strings are modelled as `List Char`, file contents as `List Nat` (bytes).
The external Google Cloud Storage service is modelled by explicit state
(the set of existing buckets and the committed objects) plus per-call fault
injection for the service operations whose failures the code handles
(`Attrs`, `Create`, the gzip writer's `Write`/`Close`, the object writer's
`Close`).  The gzip encoder is an abstract `compress : List Nat → List Nat`
parameter, as the spec treats it as a black box.
-/

namespace GoGcs

abbrev Name := List Char
abbrev Bytes := List Nat

/-- The non-degenerate part of Go `path.Base`: strip trailing slashes,
then keep the part after the last remaining slash (working from the right
end of the string). -/
def baseCore (p : Name) : Name :=
  ((p.reverse.dropWhile (· == '/')).takeWhile (fun c => !(c == '/'))).reverse

/-- Go `path.Base`: for the empty string returns ".", otherwise strips
trailing slashes, keeps the part after the last slash, and returns "/"
when nothing remains. -/
def base (p : Name) : Name :=
  if p = [] then ['.']
  else if baseCore p = [] then ['/'] else baseCore p

/-- Scan of Go `path.Ext`, over the reversed string: walk from the end,
stop at the first '.' (returning the suffix from that dot) or at a '/'
or the start (returning ""). `seen` holds the characters already passed,
in original order. -/
def extScan : Name → Name → Name
  | _, [] => []
  | seen, c :: rest =>
    if c == '/' then []
    else if c == '.' then c :: seen
    else extScan (c :: seen) rest

/-- Go `path.Ext`: the suffix beginning at the final dot of the final
slash-separated element; empty if there is no dot. -/
def ext (p : Name) : Name := extScan [] p.reverse

/-- The object-name derivation of `Upload` (gcs.go lines 109–112):
`filename = path.Base(filename); ext := path.Ext(filename);
objectName := filename[0:len(filename)-len(ext)] + ".gzip"`. -/
def objectNameOf (filename : Name) : Name :=
  (base filename).take ((base filename).length - (ext (base filename)).length)
    ++ ".gzip".toList

example : objectNameOf "data.csv".toList = "data.gzip".toList := by decide
example : objectNameOf "README".toList = "README.gzip".toList := by decide
example : objectNameOf ".gitignore".toList = ".gzip".toList := by decide
example : objectNameOf "dir/report.txt".toList = "report.gzip".toList := by decide

/-- Errors returned by the modelled operations.  `svc e` stands for an
arbitrary service error (permissions, network, ...) with injected code `e`;
`fileNotFound` is the `ioutil.ReadFile` failure. -/
inductive Err
  | svc (e : Nat)
  | fileNotFound (f : Name)
deriving Repr, DecidableEq

/-- Per-call fault injection for the external service operations whose
failures gcs.go inspects.  `none` means the operation succeeds; `some e`
makes it fail with service error code `e`.  `attrs` is a non-"not found"
failure of `bucket.Attrs` ("not found" itself is determined by the service
state, not injected). -/
structure Faults where
  attrs : Option Nat
  create : Option Nat
  zWrite : Option Nat
  zClose : Option Nat
  wcClose : Option Nat
deriving Repr, DecidableEq

/-- All service operations succeed. -/
def noFaults : Faults :=
  { attrs := none, create := none, zWrite := none, zClose := none, wcClose := none }

/-- An object committed to the storage service: its bucket, name, the two
metadata fields set by `Upload`, and the bytes written. -/
structure ObjRec where
  bucket : Name
  objName : Name
  contentType : Name
  contentEncoding : Name
  data : Bytes
deriving Repr, DecidableEq

/-- Combined state: the storage service (existing buckets, committed
objects) and the shared `gcsClient` handle fields touched by the upload
path (`projectID`, the bound `bucket`). -/
structure S where
  buckets : List Name
  objects : List ObjRec
  boundBucket : Option Name
  projectID : Name
deriving Repr, DecidableEq

/-- `setBucket` (gcs.go lines 71–90): asks the service for the bucket's
attributes; on the distinguished not-found condition creates the bucket
under `projectID` and falls through to bind it; on any other attributes
error, or a creation error, returns that error with nothing created or
bound; otherwise binds the existing bucket.  The `Bool` component records
whether a creation call was issued. -/
def setBucket (fl : Faults) (name : Name) (s : S) : Except Err Unit × S × Bool :=
  match fl.attrs with
  | some e => (.error (.svc e), s, false)
  | none =>
    if name ∈ s.buckets then
      (.ok (), { s with boundBucket := some name }, false)
    else
      match fl.create with
      | some e => (.error (.svc e), s, true)
      | none =>
        (.ok (), { s with buckets := name :: s.buckets, boundBucket := some name }, true)

/-- The local file system: an association list from path to content.
`ioutil.ReadFile` succeeds exactly on listed paths. -/
def lookupFile (files : List (Name × Bytes)) (n : Name) : Option Bytes :=
  (files.find? (fun p => p.1 == n)).map Prod.snd

/-- Observable side effects of one `Upload` call beyond the state:
whether an object writer was opened, whether a bucket-creation call was
issued, and whether the (ignored) `zWriter.Close()` reported an error. -/
structure Trace where
  writerOpened : Bool
  createdBucket : Bool
  zCloseFailed : Bool
deriving Repr, DecidableEq

/-- `Upload` (gcs.go lines 96–135): resolve the bucket via `setBucket`
(returning its error verbatim on failure); read the file (returning the
read error on failure, before any writer is opened); derive the object
name; open a writer on the bound bucket with constant `ContentType`
"text/plain" and `ContentEncoding` "gzip"; write the file through the
gzip encoder (its `Write` error is checked); call `zWriter.Close()` with
the result discarded; then `wc.Close()`, whose error is returned.  The
object is committed by a successful `wc.Close()`. -/
def Upload (compress : Bytes → Bytes) (fl : Faults) (files : List (Name × Bytes))
    (bucket filename : Name) (s : S) : Except Err Unit × S × Trace :=
  match setBucket fl bucket s with
  | (.error e, s1, created) => (.error e, s1, ⟨false, created, false⟩)
  | (.ok _, s1, created) =>
    match lookupFile files filename with
    | none => (.error (.fileNotFound filename), s1, ⟨false, created, false⟩)
    | some data =>
      let objName := objectNameOf filename
      match fl.zWrite with
      | some e => (.error (.svc e), s1, ⟨true, created, false⟩)
      | none =>
        let zFailed := fl.zClose.isSome
        match fl.wcClose with
        | some e => (.error (.svc e), s1, ⟨true, created, zFailed⟩)
        | none =>
          let obj : ObjRec :=
            { bucket := s1.boundBucket.getD []
              objName := objName
              contentType := "text/plain".toList
              contentEncoding := "gzip".toList
              data := compress data }
          (.ok (), { s1 with objects := obj :: s1.objects }, ⟨true, created, zFailed⟩)

/-- The two environment variables `Connect` reads. -/
structure Env where
  project : Name
  credentials : Name
deriving Repr, DecidableEq

/-- Result of `Connect`: either the process terminates (`os.Exit` with the
given status, after the given message was printed to standard error), or
it returns normally. -/
inductive ConnectOutcome
  | exit (status : Nat) (msg : Name)
  | ok
deriving Repr, DecidableEq

/-- Process-level state of the connection manager: whether the `once.Do`
body has run (the singleton `gcsClient` struct allocated), how many times
it was allocated, the handle's `projectID`, how many `storage.NewClient`
calls were made, and which client (by construction index) the handle
currently holds. -/
structure Proc where
  handleAllocated : Bool
  handleAllocs : Nat
  projectID : Name
  newClientCalls : Nat
  clientRef : Option Nat
deriving Repr, DecidableEq

/-- Process state before any call. -/
def initProc : Proc :=
  { handleAllocated := false, handleAllocs := 0, projectID := []
    newClientCalls := 0, clientRef := none }

/-- `createClient` (gcs.go lines 60–67): `once.Do` allocates the singleton
`gcsClient` struct the first time only. -/
def createClient (p : Proc) : Proc :=
  if p.handleAllocated then p
  else { p with handleAllocated := true, handleAllocs := p.handleAllocs + 1 }

def projectMsg : Name :=
  "GOOGLE_CLOUD_PROJECT environment variable must be set.".toList

def credentialsMsg : Name :=
  "GOOGLE_APPLICATION_CREDENTIALS environment variable must be set.".toList

/-- `Connect` (gcs.go lines 35–57): if either environment variable is
blank, print a message naming it to standard error and exit with status 1,
touching no state; otherwise run `createClient`, store the project id, and
call `storage.NewClient` (counted; a fresh client with a fresh index each
time), exiting on its failure and binding the new client otherwise. -/
def Connect (env : Env) (newClientFails : Bool) (p : Proc) : ConnectOutcome × Proc :=
  if env.project = [] then
    (.exit 1 projectMsg, p)
  else if env.credentials = [] then
    (.exit 1 credentialsMsg, p)
  else
    let p1 := createClient p
    let p2 := { p1 with projectID := env.project }
    let p3 := { p2 with newClientCalls := p2.newClientCalls + 1 }
    if newClientFails then
      (.exit 1 "Unable to create GCS Client:".toList, p3)
    else
      (.ok, { p3 with clientRef := some p3.newClientCalls })

/-! ### Lemmas about the path functions -/

theorem dropWhile_all_neg {p : Char → Bool} :
    ∀ (l : Name), (∀ c ∈ l, p c = false) → l.dropWhile p = l
  | [], _ => rfl
  | c :: l, h => by
    have hc : p c = false := h c (List.mem_cons_self _ _)
    simp [List.dropWhile_cons, hc]

theorem takeWhile_all_pos {p : Char → Bool} :
    ∀ (l : Name), (∀ c ∈ l, p c = true) → l.takeWhile p = l
  | [], _ => rfl
  | c :: l, h => by
    have hc : p c = true := h c (List.mem_cons_self _ _)
    have ih := takeWhile_all_pos l (fun x hx => h x (List.mem_cons_of_mem _ hx))
    simp [List.takeWhile_cons, hc, ih]

theorem takeWhile_append_neg {p : Char → Bool} (c : Char) (r : Name) (hc : p c = false) :
    ∀ (l : Name), (∀ x ∈ l, p x = true) → (l ++ c :: r).takeWhile p = l
  | [], _ => by simp [List.takeWhile_cons, hc]
  | a :: l, h => by
    have ha : p a = true := h a (List.mem_cons_self _ _)
    have ih := takeWhile_append_neg c r hc l (fun x hx => h x (List.mem_cons_of_mem _ hx))
    simp [List.takeWhile_cons, ha, ih]

theorem dropWhile_cons_neg {p : Char → Bool} (a : Char) (l : Name) (h : p a = false) :
    (a :: l).dropWhile p = a :: l := by
  simp [List.dropWhile_cons, h]

theorem extScan_no_dot :
    ∀ (l : Name) (seen : Name),
      (∀ c ∈ l, (c == '.') = false ∧ (c == '/') = false) → extScan seen l = []
  | [], _, _ => rfl
  | c :: l, seen, h => by
    have hc := h c (List.mem_cons_self _ _)
    have ih := extScan_no_dot l (c :: seen) (fun x hx => h x (List.mem_cons_of_mem _ hx))
    simp [extScan, hc.1, hc.2, ih]

theorem extScan_dot (rest : Name) :
    ∀ (l : Name) (seen : Name),
      (∀ c ∈ l, (c == '.') = false ∧ (c == '/') = false) →
      extScan seen (l ++ '.' :: rest) = '.' :: (l.reverse ++ seen)
  | [], seen, _ => by
    have h1 : ('.' == '/') = false := by decide
    have h2 : ('.' == '.') = true := by decide
    simp [extScan, h1, h2]
  | c :: l, seen, h => by
    have hc := h c (List.mem_cons_self _ _)
    have ih := extScan_dot rest l (c :: seen) (fun x hx => h x (List.mem_cons_of_mem _ hx))
    simp [extScan, hc.1, hc.2, ih]

theorem baseCore_of_no_slash (l : Name) (hs : '/' ∉ l) : baseCore l = l := by
  have h1 : l.reverse.dropWhile (· == '/') = l.reverse :=
    dropWhile_all_neg _ (fun c hc =>
      beq_eq_false_iff_ne.mpr (fun h => hs (h ▸ List.mem_reverse.mp hc)))
  have h2 : l.reverse.takeWhile (fun c => !(c == '/')) = l.reverse :=
    takeWhile_all_pos _ (fun c hc => by
      have : (c == '/') = false :=
        beq_eq_false_iff_ne.mpr (fun h => hs (h ▸ List.mem_reverse.mp hc))
      simp [this])
  rw [baseCore, h1, h2, List.reverse_reverse]

theorem base_of_no_slash (l : Name) (hs : '/' ∉ l) (hne : l ≠ []) : base l = l := by
  rw [base, if_neg hne, baseCore_of_no_slash l hs, if_neg hne]

theorem baseCore_append (dir stem : Name) (hs : '/' ∉ stem) (hne : stem ≠ []) :
    baseCore (dir ++ '/' :: stem) = stem := by
  have hrevne : stem.reverse ≠ [] := by simpa using hne
  obtain ⟨a, t, hat⟩ : ∃ a t, stem.reverse = a :: t := by
    cases hsr : stem.reverse with
    | nil => exact absurd hsr hrevne
    | cons a t => exact ⟨a, t, rfl⟩
  have hamem : a ∈ stem := List.mem_reverse.mp (hat ▸ List.mem_cons_self _ _)
  have ha : (a == '/') = false := beq_eq_false_iff_ne.mpr (fun h => hs (h ▸ hamem))
  have hrev : (dir ++ '/' :: stem).reverse = stem.reverse ++ '/' :: dir.reverse := by
    simp
  have hall : ∀ x ∈ a :: t, (fun c => !(c == '/')) x = true := by
    intro x hx
    have hx' : x ∈ stem := List.mem_reverse.mp (hat ▸ hx)
    have : (x == '/') = false :=
      beq_eq_false_iff_ne.mpr (fun h => hs (h ▸ hx'))
    simp [this]
  rw [baseCore, hrev, hat]
  rw [show (a :: t) ++ '/' :: dir.reverse = a :: (t ++ '/' :: dir.reverse) from rfl]
  rw [dropWhile_cons_neg a _ ha]
  rw [show a :: (t ++ '/' :: dir.reverse) = (a :: t) ++ '/' :: dir.reverse from rfl]
  rw [takeWhile_append_neg '/' dir.reverse (by decide) (a :: t) hall]
  rw [← hat, List.reverse_reverse]

theorem base_append (dir stem : Name) (hs : '/' ∉ stem) (hne : stem ≠ []) :
    base (dir ++ '/' :: stem) = stem := by
  have hpne : dir ++ '/' :: stem ≠ [] := by simp
  rw [base, if_neg hpne, baseCore_append dir stem hs hne, if_neg hne]

theorem ext_no_dot (l : Name) (hd : '.' ∉ l) (hs : '/' ∉ l) : ext l = [] := by
  refine extScan_no_dot l.reverse [] (fun c hc => ?_)
  have hc' := List.mem_reverse.mp hc
  exact ⟨beq_eq_false_iff_ne.mpr (fun h => hd (h ▸ hc')),
         beq_eq_false_iff_ne.mpr (fun h => hs (h ▸ hc'))⟩

theorem ext_dotted (stem ex : Name) (hxd : '.' ∉ ex) (hxs : '/' ∉ ex) :
    ext (stem ++ '.' :: ex) = '.' :: ex := by
  have hrev : (stem ++ '.' :: ex).reverse = ex.reverse ++ '.' :: stem.reverse := by
    simp [List.reverse_append]
  have hall : ∀ c ∈ ex.reverse, (c == '.') = false ∧ (c == '/') = false := by
    intro c hc
    have hc' := List.mem_reverse.mp hc
    exact ⟨beq_eq_false_iff_ne.mpr (fun h => hxd (h ▸ hc')),
           beq_eq_false_iff_ne.mpr (fun h => hxs (h ▸ hc'))⟩
  rw [ext, hrev, extScan_dot stem.reverse ex.reverse [] hall]
  simp

theorem objectNameOf_no_ext (stem : Name) (hs : '/' ∉ stem) (hd : '.' ∉ stem)
    (hne : stem ≠ []) : objectNameOf stem = stem ++ ".gzip".toList := by
  unfold objectNameOf
  rw [base_of_no_slash stem hs hne, ext_no_dot stem hd hs]
  simp

theorem objectNameOf_with_ext (stem ex : Name)
    (hs : '/' ∉ stem) (hd : '.' ∉ stem) (hne : stem ≠ [])
    (hxs : '/' ∉ ex) (hxd : '.' ∉ ex) :
    objectNameOf (stem ++ '.' :: ex) = stem ++ ".gzip".toList := by
  have hsall : '/' ∉ stem ++ '.' :: ex := by
    intro h
    rcases List.mem_append.mp h with h | h
    · exact hs h
    · rcases List.mem_cons.mp h with h | h
      · exact absurd h (by decide)
      · exact hxs h
  have hane : stem ++ '.' :: ex ≠ [] := by simp
  unfold objectNameOf
  rw [base_of_no_slash _ hsall hane, ext_dotted stem ex hxd hxs]
  have hlen : (stem ++ '.' :: ex).length - ('.' :: ex).length = stem.length := by
    simp
  rw [hlen, List.take_left]

theorem objectNameOf_congr (p q : Name) (h : base p = base q) :
    objectNameOf p = objectNameOf q := by
  unfold objectNameOf
  rw [h]

/-! ### Claim theorems about object naming -/

/-- C2: the destination object name is the path's base name with its
extension stripped and ".gzip" appended: a bare stem maps to
`stem ++ ".gzip"`, a stem with an extension maps to `stem ++ ".gzip"`,
and leading directory components are stripped first; in particular
"data.csv" yields "data.gzip" and "README" yields "README.gzip". -/
theorem upload_object_naming (dir stem ex : Name)
    (hs : '/' ∉ stem) (hd : '.' ∉ stem) (hne : stem ≠ [])
    (hxs : '/' ∉ ex) (hxd : '.' ∉ ex) :
    objectNameOf stem = stem ++ ".gzip".toList
    ∧ objectNameOf (stem ++ '.' :: ex) = stem ++ ".gzip".toList
    ∧ objectNameOf (dir ++ '/' :: (stem ++ '.' :: ex)) = stem ++ ".gzip".toList := by
  have hsall : '/' ∉ stem ++ '.' :: ex := by
    intro h
    rcases List.mem_append.mp h with h | h
    · exact hs h
    · rcases List.mem_cons.mp h with h | h
      · exact absurd h (by decide)
      · exact hxs h
  have hane : stem ++ '.' :: ex ≠ [] := by simp
  refine ⟨objectNameOf_no_ext stem hs hd hne,
          objectNameOf_with_ext stem ex hs hd hne hxs hxd, ?_⟩
  have hb : base (dir ++ '/' :: (stem ++ '.' :: ex)) = base (stem ++ '.' :: ex) :=
    (base_append dir _ hsall hane).trans (base_of_no_slash _ hsall hane).symm
  rw [objectNameOf_congr _ _ hb]
  exact objectNameOf_with_ext stem ex hs hd hne hxs hxd

theorem upload_object_naming_witness :
    objectNameOf "data.csv".toList = "data.gzip".toList
    ∧ objectNameOf "README".toList = "README.gzip".toList := by
  have h1 := upload_object_naming [] "data".toList "csv".toList
    (by decide) (by decide) (by decide) (by decide) (by decide)
  have h2 := upload_object_naming [] "README".toList "x".toList
    (by decide) (by decide) (by decide) (by decide) (by decide)
  constructor
  · have e1 : "data.csv".toList = "data".toList ++ '.' :: "csv".toList := by decide
    rw [e1]
    exact h1.2.1.trans (by decide)
  · exact h2.1.trans (by decide)

/-- C10: a base name that begins with a dot and contains no other dot is
treated entirely as the extension, so the derived object name is exactly
".gzip" for every such file. -/
theorem dotfile_object_name (p s : Name)
    (hb : base p = '.' :: s) (hd : '.' ∉ s) (hs : '/' ∉ s) :
    objectNameOf p = ".gzip".toList := by
  unfold objectNameOf
  rw [hb]
  have he : ext ('.' :: s) = '.' :: s := ext_dotted [] s hd hs
  rw [he]
  simp

theorem dotfile_object_name_witness :
    objectNameOf ".gitignore".toList = ".gzip".toList :=
  dotfile_object_name ".gitignore".toList "gitignore".toList
    (by decide) (by decide) (by decide)

/-! ### Claim theorems about bucket resolution, Connect and Upload -/

/-- A concrete initial state used by the witnesses: no buckets, no
objects, nothing bound. -/
def s0 : S :=
  { buckets := [], objects := [], boundBucket := none, projectID := "p".toList }

/-- A concrete file system used by the witnesses. -/
def files0 : List (Name × Bytes) := [("f.txt".toList, [1, 2])]

/-- Builds a fault assignment field by field. -/
def mkFaults (a c zw zc wc : Option Nat) : Faults :=
  { attrs := a, create := c, zWrite := zw, zClose := zc, wcClose := wc }

/-- The object `Upload` commits: bucket, derived name, the two constant
metadata fields, and the compressed bytes. -/
def mkObj (b n : Name) (d : Bytes) : ObjRec :=
  { bucket := b, objName := n, contentType := "text/plain".toList, contentEncoding := "gzip".toList, data := d }

/-- The bucket/file state used by the encoder-close counterexample. -/
def sBucket : S :=
  { buckets := ["b".toList], objects := [], boundBucket := none, projectID := "p".toList }

/-- C1: `setBucket` checks existence; on the distinguished not-found
condition it creates the bucket under the configured project and binds it
into the shared handle; any other existence-check error is returned to
the caller unmodified with the bucket neither created nor bound, and
`Upload` propagates that same error verbatim as its own result. -/
theorem setBucket_resolution (s : S) (name : Name) (e : Nat)
    (compress : Bytes → Bytes) (files : List (Name × Bytes)) (fp : Name)
    (h : name ∉ s.buckets) :
    setBucket noFaults name s
      = (.ok (), { s with buckets := name :: s.buckets, boundBucket := some name }, true)
    ∧ setBucket { noFaults with attrs := some e } name s = (.error (.svc e), s, false)
    ∧ Upload compress { noFaults with attrs := some e } files name fp s
      = (.error (.svc e), s, ⟨false, false, false⟩) := by
  refine ⟨by simp [setBucket, noFaults, h], rfl, rfl⟩

theorem setBucket_resolution_witness :
    ("b".toList : Name) ∉ s0.buckets
    ∧ (setBucket noFaults "b".toList s0
        = (.ok (), { s0 with buckets := "b".toList :: s0.buckets, boundBucket := some "b".toList }, true)
      ∧ setBucket { noFaults with attrs := some 7 } "b".toList s0
        = (.error (.svc 7), s0, false)
      ∧ Upload (fun x => x) { noFaults with attrs := some 7 } [] "b".toList "f".toList s0
        = (.error (.svc 7), s0, ⟨false, false, false⟩)) :=
  ⟨by decide, setBucket_resolution s0 "b".toList 7 (fun x => x) [] "f".toList (by decide)⟩

/-- C5: for a bucket name that does not yet exist, `setBucket` issues
exactly one creation call, and a second call with the same name does not
attempt creation again: it takes the already-exists path, merely binds
the bucket, and leaves the state unchanged. -/
theorem setBucket_idempotent_creation (s : S) (name : Name) (h : name ∉ s.buckets) :
    (setBucket noFaults name s).1 = .ok ()
    ∧ (setBucket noFaults name s).2.2 = true
    ∧ setBucket noFaults name ((setBucket noFaults name s).2.1)
        = (.ok (), (setBucket noFaults name s).2.1, false) := by
  have h1 : setBucket noFaults name s
      = (.ok (), { s with buckets := name :: s.buckets, boundBucket := some name }, true) := by
    simp [setBucket, noFaults, h]
  rw [h1]
  refine ⟨rfl, rfl, ?_⟩
  simp [setBucket, noFaults]

theorem setBucket_idempotent_creation_witness :
    ("b".toList : Name) ∉ s0.buckets
    ∧ ((setBucket noFaults "b".toList s0).1 = .ok ()
      ∧ (setBucket noFaults "b".toList s0).2.2 = true
      ∧ setBucket noFaults "b".toList ((setBucket noFaults "b".toList s0).2.1)
          = (.ok (), (setBucket noFaults "b".toList s0).2.1, false)) :=
  ⟨by decide, setBucket_idempotent_creation s0 "b".toList (by decide)⟩

/-- C3 counterexample: the result of `zWriter.Close()` is discarded by
`Upload` (gcs.go line 126).  With an injected failure of the encoder
close and everything else succeeding, `Upload` returns no error — so the
claim that an encoder-close failure is returned as an error is false. -/
theorem upload_encoder_close_unchecked_cex :
    (Upload (fun x => x) (mkFaults none none none (some 3) none)
        files0 "b".toList "f.txt".toList sBucket).1 = .ok ()
    ∧ (Upload (fun x => x) (mkFaults none none none (some 3) none)
        files0 "b".toList "f.txt".toList sBucket).2.2.zCloseFailed = true :=
  ⟨rfl, rfl⟩

/-- C3 amended: the gzip encoder is closed before the object write
stream, and the write-stream close is checked — its failure is returned
from `Upload` — but the encoder close's result is discarded: `Upload`
returns no error even when the encoder close fails. -/
theorem upload_close_error_semantics (compress : Bytes → Bytes)
    (files : List (Name × Bytes)) (b fp : Name) (s : S)
    (z : Option Nat) (e : Nat) (data : Bytes)
    (hfile : lookupFile files fp = some data) :
    (Upload compress (mkFaults none none none z none) files b fp s).1 = .ok ()
    ∧ (Upload compress (mkFaults none none none z none) files b fp s).2.2.zCloseFailed = z.isSome
    ∧ (Upload compress (mkFaults none none none z (some e)) files b fp s).1 = .error (.svc e) := by
  by_cases hb : b ∈ s.buckets <;>
    exact ⟨by simp [Upload, setBucket, mkFaults, hfile, hb],
           by simp [Upload, setBucket, mkFaults, hfile, hb],
           by simp [Upload, setBucket, mkFaults, hfile, hb]⟩

theorem upload_close_error_semantics_witness :
    lookupFile files0 "f.txt".toList = some [1, 2]
    ∧ ((Upload (fun x => x) (mkFaults none none none (some 3) none) files0 "b".toList "f.txt".toList s0).1 = .ok ()
      ∧ (Upload (fun x => x) (mkFaults none none none (some 3) none) files0 "b".toList "f.txt".toList s0).2.2.zCloseFailed
          = (some 3 : Option Nat).isSome
      ∧ (Upload (fun x => x) (mkFaults none none none (some 3) (some 5)) files0 "b".toList "f.txt".toList s0).1
          = .error (.svc 5)) :=
  ⟨rfl, upload_close_error_semantics (fun x => x) files0 "b".toList "f.txt".toList s0
    (some 3) 5 [1, 2] rfl⟩

/-- C4: if either required environment variable is blank, `Connect` exits
with status 1 after printing a message naming the missing variable to
standard error, with the process state untouched — in particular no
storage client is constructed. -/
theorem connect_blank_env (env : Env) (f : Bool) (p : Proc) :
    (env.project = [] → Connect env f p = (.exit 1 projectMsg, p))
    ∧ (env.project ≠ [] → env.credentials = [] →
        Connect env f p = (.exit 1 credentialsMsg, p)) := by
  constructor
  · intro h; simp [Connect, h]
  · intro h1 h2; simp [Connect, h1, h2]

theorem connect_blank_env_witness :
    Connect ⟨[], "c".toList⟩ false initProc = (.exit 1 projectMsg, initProc)
    ∧ Connect ⟨"p".toList, []⟩ false initProc = (.exit 1 credentialsMsg, initProc) :=
  ⟨(connect_blank_env ⟨[], "c".toList⟩ false initProc).1 rfl,
   (connect_blank_env ⟨"p".toList, []⟩ false initProc).2 (by decide) rfl⟩

/-- C6 counterexample: a first successful `Connect` makes one
`storage.NewClient` call (the handle holds client 1); a second `Connect`
makes another and rebinds the handle to the new, distinct client 2 — so
the claim that a repeated `Connect` does not construct a second distinct
storage client is false. -/
theorem connect_second_client_cex :
    (Connect ⟨"p".toList, "c".toList⟩ false initProc).2.newClientCalls = 1
    ∧ (Connect ⟨"p".toList, "c".toList⟩ false initProc).2.clientRef = some 1
    ∧ (Connect ⟨"p".toList, "c".toList⟩ false
        ((Connect ⟨"p".toList, "c".toList⟩ false initProc).2)).2.newClientCalls = 2
    ∧ (Connect ⟨"p".toList, "c".toList⟩ false
        ((Connect ⟨"p".toList, "c".toList⟩ false initProc).2)).2.clientRef = some 2 :=
  ⟨rfl, rfl, rfl, rfl⟩

/-- C6 amended: for valid configurations `Connect` succeeds and the
shared `gcsClient` handle is allocated at most once (`once.Do`): a second
call does not re-allocate it.  However, each `Connect` call constructs a
fresh underlying storage client and rebinds the handle to it. -/
theorem connect_singleton_handle (env : Env) (p : Proc)
    (hp : env.project ≠ []) (hc : env.credentials ≠ []) :
    (Connect env false p).1 = .ok
    ∧ (Connect env false p).2.handleAllocated = true
    ∧ (Connect env false ((Connect env false p).2)).2.handleAllocs
        = (Connect env false p).2.handleAllocs
    ∧ (Connect env false ((Connect env false p).2)).2.newClientCalls
        = (Connect env false p).2.newClientCalls + 1 := by
  by_cases hpa : p.handleAllocated <;>
    exact ⟨by simp [Connect, hp, hc, createClient, hpa],
           by simp [Connect, hp, hc, createClient, hpa],
           by simp [Connect, hp, hc, createClient, hpa],
           by simp [Connect, hp, hc, createClient, hpa]⟩

theorem connect_singleton_handle_witness :
    ("p".toList : Name) ≠ [] ∧ ("c".toList : Name) ≠ []
    ∧ ((Connect ⟨"p".toList, "c".toList⟩ false initProc).1 = .ok
      ∧ (Connect ⟨"p".toList, "c".toList⟩ false initProc).2.handleAllocated = true
      ∧ (Connect ⟨"p".toList, "c".toList⟩ false
          ((Connect ⟨"p".toList, "c".toList⟩ false initProc).2)).2.handleAllocs
          = (Connect ⟨"p".toList, "c".toList⟩ false initProc).2.handleAllocs
      ∧ (Connect ⟨"p".toList, "c".toList⟩ false
          ((Connect ⟨"p".toList, "c".toList⟩ false initProc).2)).2.newClientCalls
          = (Connect ⟨"p".toList, "c".toList⟩ false initProc).2.newClientCalls + 1) :=
  ⟨by decide, by decide,
   connect_singleton_handle ⟨"p".toList, "c".toList⟩ initProc (by decide) (by decide)⟩

/-- C7: the object committed by `Upload` carries the constant
content-type "text/plain" and the constant content-encoding "gzip",
regardless of the bucket, the input file's name, or its content. -/
theorem upload_constant_metadata (compress : Bytes → Bytes)
    (files : List (Name × Bytes)) (b fp : Name) (s : S) (z : Option Nat) (data : Bytes)
    (hfile : lookupFile files fp = some data) :
    ∃ obj rest,
      (Upload compress (mkFaults none none none z none) files b fp s).2.1.objects = obj :: rest
      ∧ obj.contentType = "text/plain".toList
      ∧ obj.contentEncoding = "gzip".toList := by
  by_cases hb : b ∈ s.buckets <;>
    exact ⟨mkObj b (objectNameOf fp) (compress data), s.objects,
           by simp [Upload, setBucket, mkFaults, mkObj, hfile, hb], rfl, rfl⟩

theorem upload_constant_metadata_witness :
    lookupFile files0 "f.txt".toList = some [1, 2]
    ∧ (∃ obj rest,
        (Upload (fun x => x) (mkFaults none none none none none) files0 "b".toList "f.txt".toList s0).2.1.objects
          = obj :: rest
        ∧ obj.contentType = "text/plain".toList
        ∧ obj.contentEncoding = "gzip".toList) :=
  ⟨rfl, upload_constant_metadata (fun x => x) files0 "b".toList "f.txt".toList s0
    none [1, 2] rfl⟩

/-- C8: when the file cannot be read, `Upload` returns the read error, no
object writer is opened and no object is written; the only side effect is
the bucket resolution already executed before the read (the bucket is
bound and possibly created, the object store is untouched). -/
theorem upload_missing_file (compress : Bytes → Bytes)
    (files : List (Name × Bytes)) (b fp : Name) (s : S)
    (hfile : lookupFile files fp = none) :
    Upload compress noFaults files b fp s
      = (.error (.fileNotFound fp), (setBucket noFaults b s).2.1,
         ⟨false, (setBucket noFaults b s).2.2, false⟩)
    ∧ (setBucket noFaults b s).2.1.objects = s.objects
    ∧ (setBucket noFaults b s).2.1.boundBucket = some b := by
  by_cases hb : b ∈ s.buckets <;>
    exact ⟨by simp [Upload, setBucket, noFaults, hfile, hb],
           by simp [setBucket, noFaults, hb],
           by simp [setBucket, noFaults, hb]⟩

theorem upload_missing_file_witness :
    lookupFile files0 "g".toList = none
    ∧ (Upload (fun x => x) noFaults files0 "b".toList "g".toList s0
        = (.error (.fileNotFound "g".toList), (setBucket noFaults "b".toList s0).2.1,
           ⟨false, (setBucket noFaults "b".toList s0).2.2, false⟩)
      ∧ (setBucket noFaults "b".toList s0).2.1.objects = s0.objects
      ∧ (setBucket noFaults "b".toList s0).2.1.boundBucket = some "b".toList) :=
  ⟨rfl, upload_missing_file (fun x => x) files0 "b".toList "g".toList s0 rfl⟩

/-- C9: on a fault-free `Upload` the bytes written to the destination
object are the compression of the entire original file content, so for
any decompressor that is a left inverse of the compressor, decompressing
the written bytes reproduces the original file bytes exactly. -/
theorem upload_roundtrip (compress decompress : Bytes → Bytes)
    (hinv : ∀ x, decompress (compress x) = x)
    (files : List (Name × Bytes)) (b fp : Name) (s : S) (data : Bytes)
    (hfile : lookupFile files fp = some data) :
    (Upload compress noFaults files b fp s).1 = .ok ()
    ∧ ∃ obj rest,
        (Upload compress noFaults files b fp s).2.1.objects = obj :: rest
        ∧ obj.data = compress data
        ∧ decompress obj.data = data := by
  by_cases hb : b ∈ s.buckets <;>
    exact ⟨by simp [Upload, setBucket, noFaults, hfile, hb],
           mkObj b (objectNameOf fp) (compress data), s.objects,
           by simp [Upload, setBucket, mkObj, noFaults, hfile, hb], rfl, hinv data⟩

theorem upload_roundtrip_witness :
    (∀ x : Bytes, (fun y : Bytes => y) ((fun y : Bytes => y) x) = x)
    ∧ lookupFile files0 "f.txt".toList = some [1, 2]
    ∧ ((Upload (fun y : Bytes => y) noFaults files0 "b".toList "f.txt".toList s0).1 = .ok ()
      ∧ ∃ obj rest,
          (Upload (fun y : Bytes => y) noFaults files0 "b".toList "f.txt".toList s0).2.1.objects
            = obj :: rest
          ∧ obj.data = (fun y : Bytes => y) [1, 2]
          ∧ (fun y : Bytes => y) obj.data = [1, 2]) :=
  ⟨fun _ => rfl, rfl,
   upload_roundtrip (fun y => y) (fun y => y) (fun _ => rfl) files0
     "b".toList "f.txt".toList s0 [1, 2] rfl⟩

end GoGcs
